import Mathlib

/-!
# Verification of the event-analytics-platform ingestion and analytics code

This file is a shallow embedding, in Lean 4, of the parts of the
event-analytics-platform TypeScript service that the specification's
testable properties talk about:

* the ingestion pipeline (`validateEvent`, `generateEventId`, `isDuplicate`,
  `processEvent`, `processEventBatch`, the per-tenant buffer and the queue
  worker) from `src/services/eventProcessor.ts`;
* the analytics engine (`calculateFunnel`, `calculateRetention`,
  `calculateMetrics`, `getUserJourney`, `getEventSummary`) from
  `src/services/analyticsService.ts`, with the MongoDB aggregation
  pipelines of `src/models/Event.ts` modelled as pure list functions over
  an in-memory event store;
* the `POST /events` route handler from `src/routes/events.ts` and the
  rate-limiter configuration from `src/middleware/rateLimiter.ts`.

Modelling conventions:

* Machine timestamps (`Date.getTime()`) are `Int` milliseconds.
* JavaScript `Math.round` is half-up rounding, embedded on `ℚ` as
  `⌊x + 1/2⌋`; the funnel/retention percentages at the inputs considered
  here are exact dyadic rationals, where IEEE doubles and `ℚ` agree.
* SHA-256 (Node's `crypto`, an external library) is an abstract function
  parameter `h : String → String` threaded through the pipeline; the code
  only ever uses its determinism.  `hashId` is the concrete instantiation
  used to run the model on closed inputs.
* Redis is modelled as the list of keys currently present (`markers`);
  TTLs do not expire within the windows the claims quantify over.
* The Mongo store is the list of persisted events; aggregation stages
  (`$match`, `$group` with `$addToSet`, `$sort`, `$count`) are modelled as
  `List.filter`, `uniq`, `List.insertionSort` and `List.length`.
-/

/-- A persisted/validated analytics event, after `validateEvent` has run:
the four required fields are present and `timestamp` is a concrete instant
(`Int` epoch milliseconds).  Payload fields that the verified logic never
inspects (`properties`, `sessionId`, `pageUrl`, `userAgent`, `ipAddress`)
are carried opaquely by the real code and are omitted here. -/
structure Event where
  userId : String
  eventName : String
  timestampMs : Int
  orgId : String
  projectId : String
deriving DecidableEq, Repr

/-- A raw event payload as received by the ingestion path, before
`validateEvent`: the timestamp may be absent (it then defaults to receipt
time). -/
structure RawEvent where
  userId : String
  eventName : String
  timestampMs : Option Int
  orgId : String
  projectId : String
deriving DecidableEq, Repr

/-- Model of `validateEvent` from `eventProcessor.ts`: throws when any of the four
required fields is missing (JavaScript falsy check — the empty string is
falsy), and fills a missing timestamp with the receipt time `now`. -/
def validateEvent (now : Int) (r : RawEvent) : Option Event :=
  if r.userId = "" ∨ r.eventName = "" ∨ r.orgId = "" ∨ r.projectId = "" then
    none
  else
    some ⟨r.userId, r.eventName, r.timestampMs.getD now, r.orgId, r.projectId⟩

/-- View of a validated event as a raw payload (used when the queue worker
re-feeds buffered events through `processEventBatch`). -/
def Event.toRaw (e : Event) : RawEvent :=
  ⟨e.userId, e.eventName, some e.timestampMs, e.orgId, e.projectId⟩

/-- The pre-image string hashed by `generateEventId`:
`` `${userId}-${eventName}-${timestamp.getTime()}-${orgId}-${projectId}` ``.
The fields are joined with a bare `-` with no escaping. -/
def eventIdString (e : Event) : String :=
  e.userId ++ "-" ++ e.eventName ++ "-" ++ toString e.timestampMs ++ "-"
    ++ e.orgId ++ "-" ++ e.projectId

/-- Model of `generateEventId` from `eventProcessor.ts`: the SHA-256 hex digest of
`eventIdString`.  The hash itself lives in Node's `crypto` library, so it
is taken as an abstract function parameter `h`; the pipeline only uses
that `h` is a function (determinism). -/
def generateEventId (h : String → String) (e : Event) : String :=
  h (eventIdString e)

/-- Concrete stand-in instantiation for the SHA-256 parameter, used to run
the model on closed inputs.  Every theorem that can be stated for all `h`
is; `hashId` only appears where a closed term is required. -/
def hashId : String → String := fun s => s

/-- The Redis key used by `isDuplicate`:
`` `event:${orgId}:${projectId}:${eventId}` ``. -/
def dedupKey (orgId projectId eventId : String) : String :=
  "event:" ++ orgId ++ ":" ++ projectId ++ ":" ++ eventId

/-- Model of `isDuplicate` from `eventProcessor.ts`: if the dedup key is present in
Redis the event is a duplicate; otherwise the marker is written with a
24-hour TTL and the event is let through.  Redis state is the list of
present keys; the function returns the verdict and the updated state. -/
def isDuplicate (markers : List String) (eventId orgId projectId : String) :
    Bool × List String :=
  let key := dedupKey orgId projectId eventId
  if key ∈ markers then (true, markers)
  else (false, key :: markers)

/-- State threaded through `processEventBatch`: the Redis dedup markers and
the Mongo `events` collection (`insertMany` appends). -/
structure BatchState where
  markers : List String
  store : List Event
deriving DecidableEq, Repr

/-- The per-event loop of `processEventBatch`: validate, fingerprint,
dedup-check each incoming event, accumulating the events that will be
persisted and the fingerprints counted as duplicates.  Invalid events are
skipped (logged only). -/
def batchPartition (h : String → String) (now : Int) (orgId projectId : String) :
    List RawEvent → List String → List Event × List String × List String
  | [], markers => ([], [], markers)
  | r :: rest, markers =>
    match validateEvent now r with
    | none => batchPartition h now orgId projectId rest markers
    | some ve =>
      let eventId := generateEventId h ve
      let (dup, markers') := isDuplicate markers eventId orgId projectId
      if dup then
        let (vs, ds, ms) := batchPartition h now orgId projectId rest markers'
        (vs, eventId :: ds, ms)
      else
        let (vs, ds, ms) := batchPartition h now orgId projectId rest markers'
        (ve :: vs, ds, ms)

/-- Model of `processEventBatch` from `eventProcessor.ts`: partition the incoming
events into valid-and-fresh versus duplicates, then `Event.insertMany` the
fresh ones (appended to the store).  When no event survives the function
returns without touching the store. -/
def processEventBatch (h : String → String) (now : Int) (events : List RawEvent)
    (orgId projectId : String) (st : BatchState) : BatchState :=
  let (validEvents, _dups, markers') :=
    batchPartition h now orgId projectId events st.markers
  if validEvents.isEmpty then { st with markers := markers' }
  else { markers := markers', store := st.store ++ validEvents }

/-- The number of fingerprints the `processEventBatch` run counts as
duplicates (the length of its internal `duplicates` array). -/
def batchDupCount (h : String → String) (now : Int) (events : List RawEvent)
    (orgId projectId : String) (markers : List String) : Nat :=
  (batchPartition h now orgId projectId events markers).2.1.length

/-- The number of events the `processEventBatch` run persists (the length
of its internal `validEvents` array, all of which `insertMany` stores). -/
def batchNewCount (h : String → String) (now : Int) (events : List RawEvent)
    (orgId projectId : String) (markers : List String) : Nat :=
  (batchPartition h now orgId projectId events markers).1.length

/-- The `EVENT_BATCH_SIZE` default: the buffer flushes synchronously at 1000
events. -/
def maxBatchSize : Nat := 1000

/-- Full pipeline state for the single-event submission path: Redis
markers, the per-tenant in-memory buffers, the Bull queue of pending batch
jobs, and the Mongo store.  The `eventBuffer` map's string key
`` `${orgId}:${projectId}` `` (recovered with `split(':')` when flushing)
is modelled by the pair `(orgId, projectId)` itself; the two coincide
whenever the ids are colon-free, which the tenancy model assumes. -/
structure PipelineState where
  markers : List String
  buffers : List ((String × String) × List Event)
  queue : List (List Event × String × String)
  store : List Event
deriving DecidableEq, Repr

/-- The empty initial pipeline state. -/
def PipelineState.init : PipelineState := ⟨[], [], [], []⟩

/-- Buffer lookup for a tenant key (the `eventBuffer` map). -/
def bufferGet (buffers : List ((String × String) × List Event))
    (key : String × String) : List Event :=
  ((buffers.find? (fun p => p.1 = key)).map Prod.snd).getD []

/-- Replace (or create) the buffer stored under a tenant key. -/
def bufferSet (buffers : List ((String × String) × List Event))
    (key : String × String) (v : List Event) :
    List ((String × String) × List Event) :=
  if buffers.any (fun p => p.1 = key) then
    buffers.map (fun p => if p.1 = key then (key, v) else p)
  else buffers ++ [(key, v)]

/-- Model of `processBuffer` from `eventProcessor.ts`: detach the tenant's buffer,
replace it with an empty one, and enqueue the detached slice as a
`process-batch` job. -/
def processBuffer (orgId projectId : String) (st : PipelineState) : PipelineState :=
  let key := (orgId, projectId)
  let events := bufferGet st.buffers key
  if events.isEmpty then st
  else
    { st with
      buffers := bufferSet st.buffers key []
      queue := st.queue ++ [(events, orgId, projectId)] }

/-- Model of `processEvent` from `eventProcessor.ts` (the single-event submission
path): validate, fingerprint, dedup-check (which writes the marker), then
append to the tenant buffer, flushing synchronously when the buffer
reaches `maxBatchSize`.  Validation failure throws. -/
def processEvent (h : String → String) (now : Int) (raw : RawEvent)
    (orgId projectId : String) (st : PipelineState) : Except String PipelineState :=
  match validateEvent now raw with
  | none => .error "Missing required field"
  | some ve =>
    let eventId := generateEventId h ve
    let (dup, markers') := isDuplicate st.markers eventId orgId projectId
    if dup then .ok { st with markers := markers' }
    else
      let key := (orgId, projectId)
      let buf := bufferGet st.buffers key ++ [ve]
      let st' := { st with markers := markers', buffers := bufferSet st.buffers key buf }
      if maxBatchSize ≤ buf.length then .ok (processBuffer orgId projectId st')
      else .ok st'

/-- The periodic sweeper / shutdown flush: `processBuffer` every tenant
buffer. -/
def flushBuffers (st : PipelineState) : PipelineState :=
  st.buffers.foldl (fun acc p => processBuffer p.1.1 p.1.2 acc) st

/-- The Bull queue worker (`config/queue.ts`): dequeue every pending
`process-batch` job and run `processEventBatch` on it. -/
def runQueueWorker (h : String → String) (now : Int) (st : PipelineState) :
    PipelineState :=
  let final := st.queue.foldl
    (fun (bs : BatchState) job =>
      processEventBatch h now (job.1.map Event.toRaw) job.2.1 job.2.2 bs)
    ⟨st.markers, st.store⟩
  { st with markers := final.markers, store := final.store, queue := [] }

/-- Number of records in a store whose fingerprint matches a given one. -/
def fingerprintCount (h : String → String) (store : List Event) (e : Event) : Nat :=
  (store.filter (fun x => generateEventId h x = generateEventId h e)).length

/-- Mongo `$group` by a key / `$addToSet` cardinality helper: the distinct
elements of a list (first occurrences kept), with an accumulator of keys
already seen. -/
def uniqAux [DecidableEq α] : List α → List α → List α
  | [], _ => []
  | x :: xs, seen =>
    if x ∈ seen then uniqAux xs seen else x :: uniqAux xs (x :: seen)

/-- The distinct elements of a list, in order of first occurrence. -/
def uniq [DecidableEq α] (l : List α) : List α := uniqAux l []

/-- JavaScript `Math.round`: round half-up (towards `+∞`). -/
def jsRound (x : ℚ) : ℤ := ⌊x + 1/2⌋

/-- The code's two-decimal rounding idiom `Math.round(x * 100) / 100`. -/
def jsRound2 (x : ℚ) : ℚ := (jsRound (x * 100) : ℚ) / 100

/-- A funnel step definition (`FunnelStepSchema` in `models/Funnel.ts`).
`filters` and `timeWindow` are stored but `calculateFunnel` never reads
them, so only the event name is carried. -/
structure FunnelStep where
  eventName : String
deriving DecidableEq, Repr

/-- A stored funnel (`models/Funnel.ts`): named, at least 2 steps, scoped
to a tenant. -/
structure Funnel where
  name : String
  steps : List FunnelStep
  orgId : String
  projectId : String
deriving DecidableEq, Repr

/-- One row of `Event.getFunnelData`'s output: a user together with the
set of step event names the user produced in range (the `eventNames`
projection of the aggregation). -/
structure FunnelUser where
  userId : String
  eventNames : List String
deriving DecidableEq, Repr

/-- The `$match` stage of `Event.getFunnelData` (with the service's
default empty `filters`): tenant, step event names, timestamp range. -/
def funnelMatch (orgId projectId : String) (steps : List String)
    (startMs endMs : Int) (e : Event) : Bool :=
  e.orgId = orgId ∧ e.projectId = projectId ∧ e.eventName ∈ steps ∧
    startMs ≤ e.timestampMs ∧ e.timestampMs ≤ endMs

/-- Model of `Event.getFunnelData` from `models/Event.ts`: match, group by
`(userId, eventName)` taking first occurrences, then regroup by user and
project the list of event names per user. -/
def getFunnelData (store : List Event) (orgId projectId : String)
    (steps : List String) (startMs endMs : Int) : List FunnelUser :=
  let matched := store.filter (funnelMatch orgId projectId steps startMs endMs)
  (uniq (matched.map (·.userId))).map fun u =>
    ⟨u, uniq ((matched.filter (fun e => e.userId = u)).map (·.eventName))⟩

/-- One entry of `IFunnelResult.steps`. -/
structure StepResult where
  eventName : String
  count : Nat
  conversionRate : ℚ
  dropOffRate : ℚ
deriving DecidableEq, Repr

/-- The number of users of the funnel data whose event-name set contains a
given step (`funnelData.filter(user => user.eventNames.includes(stepName)).length`). -/
def stepCount (funnelData : List FunnelUser) (s : String) : Nat :=
  (funnelData.filter (fun u => s ∈ u.eventNames)).length

/-- The step-metrics loop of `calculateFunnel`: walk the steps carrying
`previousCount` (initially 0), emitting count, conversion rate and
drop-off rate per step, each rate rounded to two decimals. -/
def funnelLoop (funnelData : List FunnelUser) : Nat → List String → List StepResult
  | _, [] => []
  | previousCount, s :: rest =>
    let stepUsers := stepCount funnelData s
    let conversionRate : ℚ :=
      if 0 < previousCount then ((stepUsers : ℚ) / previousCount) * 100 else 100
    let dropOffRate : ℚ :=
      if 0 < previousCount then
        (((previousCount : ℚ) - stepUsers) / previousCount) * 100
      else 0
    ⟨s, stepUsers, jsRound2 conversionRate, jsRound2 dropOffRate⟩ ::
      funnelLoop funnelData stepUsers rest

/-- The result `IFunnelResult` (the fields the claims speak about). -/
structure FunnelResult where
  funnelName : String
  steps : List StepResult
  totalUsers : Nat
deriving DecidableEq, Repr

/-- Model of `calculateFunnel` from `analyticsService.ts` (cache miss path): check
the funnel belongs to the caller's tenant (else `NotFound`), fetch the
per-user funnel data, and run the step-metrics loop. -/
def calculateFunnel (store : List Event) (funnel : Funnel)
    (orgId projectId : String) (startMs endMs : Int) : Option FunnelResult :=
  if funnel.orgId = orgId ∧ funnel.projectId = projectId then
    let steps := funnel.steps.map (·.eventName)
    let funnelData := getFunnelData store orgId projectId steps startMs endMs
    let stepResults := funnelLoop funnelData 0 steps
    some ⟨funnel.name, stepResults, ((stepResults.head?).map (·.count)).getD 0⟩
  else none

/-- Funnel monotonicity as the spec states it: consecutive step counts are
non-increasing. -/
def countsMonotone : List StepResult → Bool
  | a :: b :: rest => decide (b.count ≤ a.count) && countsMonotone (b :: rest)
  | _ => true

/-- The step list of a funnel analytics result (empty when the funnel
lookup fails the tenant check). -/
def funnelResultSteps (store : List Event) (funnel : Funnel)
    (orgId projectId : String) (startMs endMs : Int) : List StepResult :=
  ((calculateFunnel store funnel orgId projectId startMs endMs).map (·.steps)).getD []

/-- Ordered membership: every user of the funnel data who reached a step
also reached the preceding step (the hypothesis under which the source's
per-step counting is monotone). -/
def downwardClosed (data : List FunnelUser) : List String → Bool
  | s :: t :: rest =>
    data.all (fun u => decide (t ∈ u.eventNames → s ∈ u.eventNames)) &&
      downwardClosed data (t :: rest)
  | _ => true

/-- Milliseconds per UTC day. -/
def msPerDay : Int := 86400000

/-- Civil date from a count of days since 1970-01-01 (proleptic Gregorian,
UTC) — the calendar arithmetic behind Mongo's `$year`/`$month`/
`$dayOfMonth`. -/
def civilFromDays (z0 : Int) : Int × Int × Int :=
  let z := z0 + 719468
  let era := z.fdiv 146097
  let doe := z - era * 146097
  let yoe := (doe - doe.fdiv 1460 + doe.fdiv 36524 - doe.fdiv 146096).fdiv 365
  let y := yoe + era * 400
  let doy := doe - (365 * yoe + yoe.fdiv 4 - yoe.fdiv 100)
  let mp := (5 * doy + 2).fdiv 153
  let d := doy - (153 * mp + 2).fdiv 5 + 1
  let m := mp + (if mp < 10 then 3 else -9)
  (y + (if m ≤ 2 then 1 else 0), m, d)

/-- Days since 1970-01-01 of a civil date — the arithmetic behind Mongo's
`$dateFromParts`. -/
def daysFromCivil (y0 m d : Int) : Int :=
  let y := y0 - (if m ≤ 2 then 1 else 0)
  let era := y.fdiv 400
  let yoe := y - era * 400
  let mp := m + (if 2 < m then -3 else 9)
  let doy := (153 * mp + 2).fdiv 5 + d - 1
  let doe := yoe * 365 + yoe.fdiv 4 - yoe.fdiv 100 + doy
  era * 146097 + doe - 719468

/-- Day-of-week of a day count, Sunday = 0 (1970-01-01 was a Thursday). -/
def dayOfWeek (days : Int) : Int := (days + 4).emod 7

/-- Mongo `$week`: week of the year 0–53, weeks beginning on Sunday, days
before the first Sunday falling in week 0. -/
def weekOfYear (days : Int) : Int :=
  let (y, _, _) := civilFromDays days
  let yday := days - daysFromCivil y 1 1
  (yday + 7 - dayOfWeek days).fdiv 7

/-- The `_id` produced by `calculateMetrics`' `$group` stage: the populated
calendar parts depend on the interval (`week` is only used for `weekly`). -/
structure BucketKey where
  year : Int
  month : Option Int
  day : Option Int
  hour : Option Int
  week : Option Int
deriving DecidableEq, Repr

/-- The requested metrics granularity. -/
inductive MetricInterval
  | hourly | daily | weekly | monthly
deriving DecidableEq, Repr

/-- The `$group` key of `calculateMetrics` for each interval, extracted
from the event timestamp with the UTC calendar operators. -/
def bucketKey (interval : MetricInterval) (ms : Int) : BucketKey :=
  let days := ms.fdiv msPerDay
  let (y, m, d) := civilFromDays days
  let hour := (ms - days * msPerDay).fdiv 3600000
  match interval with
  | .hourly => ⟨y, some m, some d, some hour, none⟩
  | .daily => ⟨y, some m, some d, none, none⟩
  | .weekly => ⟨y, none, none, none, some (weekOfYear days)⟩
  | .monthly => ⟨y, some m, none, none, none⟩

/-- Mongo `$dateFromParts` applied to a group key, as in the `$project`
stage of `calculateMetrics`.  Missing `month`/`day` default to 1 and
`hour` to 0; a key carrying a `week` part is an error (`week` is not an
argument `$dateFromParts` accepts), so the weekly pipeline fails whenever
it has at least one group. -/
def dateFromParts (k : BucketKey) : Option Int :=
  match k.week with
  | some _ => none
  | none =>
    some ((daysFromCivil k.year (k.month.getD 1) (k.day.getD 1)) * msPerDay
      + (k.hour.getD 0) * 3600000)

/-- Client-supplied `filters` for `GET /metrics` (JSON from the query
string), modelled as optional equality conditions on the scalar event
fields.  `calculateMetrics` merges them into the match stage with
`Object.assign(matchStage, filters)`, so a key present here OVERRIDES the
tenant/event condition of the same name. -/
structure MetricsFilters where
  orgId : Option String := none
  projectId : Option String := none
  eventName : Option String := none
  userId : Option String := none
deriving DecidableEq, Repr

/-- The parameters `calculateMetrics` receives (tenant from the API key,
range already resolved by the route, filters from the client). -/
structure MetricsQuery where
  event : String
  interval : MetricInterval
  orgId : String
  projectId : String
  startMs : Int
  endMs : Int
  filters : MetricsFilters := {}
deriving DecidableEq, Repr

/-- The effective `$match` stage of `calculateMetrics` after
`Object.assign(matchStage, filters)`: each filter key replaces the
corresponding tenant/event condition; `userId` is purely additive. -/
def metricsMatch (q : MetricsQuery) (e : Event) : Bool :=
  e.orgId = q.filters.orgId.getD q.orgId ∧
  e.projectId = q.filters.projectId.getD q.projectId ∧
  e.eventName = q.filters.eventName.getD q.event ∧
  q.startMs ≤ e.timestampMs ∧ e.timestampMs ≤ q.endMs ∧
  e.userId = q.filters.userId.getD e.userId

/-- One element of `IMetricsResult.data`. -/
structure MetricBucket where
  timestampMs : Int
  count : Nat
  uniqueUsers : Nat
deriving DecidableEq, Repr

/-- The result `IMetricsResult` (the fields the claims speak about). -/
structure MetricsResult where
  totalCount : Nat
  totalUniqueUsers : Nat
  data : List MetricBucket
deriving DecidableEq, Repr

/-- The number of distinct `userId`s among the events matching a
predicate: Mongo `{$match} {$group: {_id: userId}} {$count}`. -/
def distinctUserCount (store : List Event) (p : Event → Bool) : Nat :=
  (uniq ((store.filter p).map (·.userId))).length

/-- The `$group` stage of `calculateMetrics`: one group per calendar key
among the matched events, carrying the event count and the distinct-user
(`$addToSet` size) count. -/
def metricsGroups (store : List Event) (q : MetricsQuery) :
    List (BucketKey × Nat × Nat) :=
  let matched := store.filter (metricsMatch q)
  (uniq (matched.map (fun e => bucketKey q.interval e.timestampMs))).map fun k =>
    let grp := matched.filter (fun e => bucketKey q.interval e.timestampMs = k)
    (k, grp.length, (uniq (grp.map (·.userId))).length)

/-- The `$project` stage applying `$dateFromParts` to every group (the
whole aggregation errors as soon as one group key cannot be converted). -/
def metricsBuckets (store : List Event) (q : MetricsQuery) :
    Option (List MetricBucket) :=
  (metricsGroups store q).mapM fun g =>
    (dateFromParts g.1).map fun ts => MetricBucket.mk ts g.2.1 g.2.2

/-- Model of `calculateMetrics` from `analyticsService.ts` (cache miss path): match,
group by the interval's calendar key, project the bucket timestamp with
`$dateFromParts`, sort ascending by it; `totalCount` sums the bucket
counts and `totalUniqueUsers` is a separate distinct-user aggregation over
the same match stage. -/
def calculateMetrics (store : List Event) (q : MetricsQuery) :
    Option MetricsResult :=
  (metricsBuckets store q).map fun buckets =>
    let sorted := buckets.insertionSort (fun a b => a.timestampMs ≤ b.timestampMs)
    { totalCount := (sorted.map (·.count)).sum
      totalUniqueUsers := distinctUserCount store (metricsMatch q)
      data := sorted }

/-- The parameters `calculateRetention` receives (tenant from the API key,
date range already resolved). -/
structure RetentionQuery where
  cohort : String
  days : Nat
  orgId : String
  projectId : String
  startMs : Int
  endMs : Int
deriving DecidableEq, Repr

/-- One element of `IRetentionResult.retentionData`. -/
structure RetentionDay where
  day : Nat
  retainedUsers : Nat
  retentionRate : ℚ
deriving DecidableEq, Repr

/-- The result `IRetentionResult` (the fields the claims speak about). -/
structure RetentionResult where
  cohortSize : Nat
  retentionData : List RetentionDay
deriving DecidableEq, Repr

/-- The cohort aggregation of `calculateRetention`: the distinct users
with at least one occurrence of the cohort event in range, in the tenant. -/
def cohortUsers (store : List Event) (q : RetentionQuery) : List String :=
  uniq ((store.filter (fun e =>
    e.orgId = q.orgId ∧ e.projectId = q.projectId ∧ e.eventName = q.cohort ∧
      q.startMs ≤ e.timestampMs ∧ e.timestampMs ≤ q.endMs)).map (·.userId))

/-- Start of the calendar day `start + day` (the
`moment(start).add(day, 'days').startOf('day')` bound, taken in UTC). -/
def retentionDayStart (startMs : Int) (day : Nat) : Int :=
  ((startMs + day * msPerDay).fdiv msPerDay) * msPerDay

/-- The per-day aggregation of `calculateRetention`: distinct users from
the cohort with any event in the tenant during that calendar day
(`endOf('day')` is the day's last millisecond). -/
def retainedOnDay (store : List Event) (q : RetentionQuery)
    (cohort : List String) (day : Nat) : Nat :=
  let dayStart := retentionDayStart q.startMs day
  (uniq ((store.filter (fun e =>
    e.orgId = q.orgId ∧ e.projectId = q.projectId ∧ e.userId ∈ cohort ∧
      dayStart ≤ e.timestampMs ∧ e.timestampMs ≤ dayStart + (msPerDay - 1))).map
    (·.userId))).length

/-- Model of `calculateRetention` from `analyticsService.ts` (cache miss path):
compute the cohort, then for each day `1..days` the retained distinct
users and the retention rate `retained / cohortSize * 100` (0 when the
cohort is empty), rounded to two decimals. -/
def calculateRetention (store : List Event) (q : RetentionQuery) :
    RetentionResult :=
  let cohort := cohortUsers store q
  let cohortSize := cohort.length
  { cohortSize := cohortSize
    retentionData := (List.range q.days).map fun i =>
      let day := i + 1
      let retainedCount := retainedOnDay store q cohort day
      let retentionRate : ℚ :=
        if 0 < cohortSize then ((retainedCount : ℚ) / cohortSize) * 100 else 0
      ⟨day, retainedCount, jsRound2 retentionRate⟩ }

/-- The match stage of `Event.getUserJourney` from `models/Event.ts`: the
timestamp range condition is added ONLY when both `startDate` and
`endDate` are supplied (`if (startDate && endDate)`). -/
def journeyMatch (userId orgId projectId : String)
    (startMs endMs : Option Int) (e : Event) : Bool :=
  e.userId = userId ∧ e.orgId = orgId ∧ e.projectId = projectId ∧
    (match startMs, endMs with
     | some s, some t => decide (s ≤ e.timestampMs ∧ e.timestampMs ≤ t)
     | _, _ => true) = true

/-- Model of `Event.getUserJourney`: the user's matching events sorted ascending by
timestamp (`.sort({timestamp: 1})`). -/
def getUserJourneyQuery (store : List Event) (userId orgId projectId : String)
    (startMs endMs : Option Int) : List Event :=
  (store.filter (journeyMatch userId orgId projectId startMs endMs)).insertionSort
    (fun a b => a.timestampMs ≤ b.timestampMs)

/-- The result `IUserJourney` (the fields the claims speak about). -/
structure UserJourney where
  userId : String
  events : List Event
  totalEvents : Nat
deriving DecidableEq, Repr

/-- Model of `getUserJourney` from `analyticsService.ts` (cache miss path): run the
store query; zero events in range is an error (`NotFound` at the route). -/
def getUserJourney (store : List Event) (userId orgId projectId : String)
    (startMs endMs : Option Int) : Option UserJourney :=
  let events := getUserJourneyQuery store userId orgId projectId startMs endMs
  if events.isEmpty then none
  else some ⟨userId, events, events.length⟩

/-- One row of the event-summary aggregation. -/
structure SummaryRow where
  eventName : String
  count : Nat
  uniqueUsers : Nat
deriving DecidableEq, Repr

/-- Model of `getEventSummary` from `analyticsService.ts` (cache miss path): group
the tenant's in-range events by event name with count and distinct-user
cardinality, sorted descending by count; totals are the sum of counts and
a separate distinct-user aggregation. -/
def getEventSummary (store : List Event) (orgId projectId : String)
    (startMs endMs : Int) : Nat × Nat × List SummaryRow :=
  let p : Event → Bool := fun e =>
    e.orgId = orgId ∧ e.projectId = projectId ∧
      startMs ≤ e.timestampMs ∧ e.timestampMs ≤ endMs
  let matched := store.filter p
  let rows := (uniq (matched.map (·.eventName))).map fun n =>
    let grp := matched.filter (fun e => e.eventName = n)
    SummaryRow.mk n grp.length (uniq (grp.map (·.userId))).length
  let sorted := rows.insertionSort (fun a b => b.count ≤ a.count)
  ((sorted.map (·.count)).sum, distinctUserCount store p, sorted)

/-- Decimal digit accumulation for `jsParseInt`. -/
def parseDigitsAux : List Char → Nat → Option Nat
  | [], acc => some acc
  | c :: cs, acc =>
    if 48 ≤ c.toNat ∧ c.toNat ≤ 57 then
      parseDigitsAux cs (acc * 10 + (c.toNat - 48))
    else none

/-- JavaScript `parseInt` restricted to the plain unsigned decimal strings
the configuration uses (`none` = `NaN`). -/
def jsParseInt (s : String) : Option Int :=
  match s.toList with
  | [] => none
  | cs => (parseDigitsAux cs 0).map Int.ofNat

/-- The `windowMs` of the general rate limiter
(`parseInt(process.env.RATE_LIMIT_WINDOW_MS || '900000')`). -/
def rateLimitWindowMs (env : Option String) : Option Int :=
  jsParseInt (env.getD "900000")

/-- The `maxRequests` of the general rate limiter
(`parseInt(process.env.RATE_LIMIT_MAX_REQUESTS || '10000')` — the source
comment reads "Increased for development"). -/
def rateLimitMaxRequests (env : Option String) : Option Int :=
  jsParseInt (env.getD "10000")

/-- The general limiter's `keyGenerator`:
`req.headers['x-api-key'] || req.ip || 'unknown'` (JavaScript `||`, so an
empty header or ip falls through). -/
def rateLimitKey (apiKey ip : Option String) : String :=
  match apiKey with
  | some k => if k = "" then (match ip with
      | some i => if i = "" then "unknown" else i
      | none => "unknown") else k
  | none => match ip with
    | some i => if i = "" then "unknown" else i
    | none => "unknown"

/-- The 429 body the general limiter's `handler` sends. -/
structure RateLimitResponse where
  status : Nat
  retryAfter : Int
deriving DecidableEq, Repr

/-- One request through the general limiter (`express-rate-limit` fixed
window over the Redis counter): the window's hit count is incremented and
once it exceeds `max` the handler answers 429 with
`retryAfter = Math.ceil(windowMs / 1000)` seconds. -/
def rateLimiterHit (windowMs maxRequests : Int) (prevHits : Nat) :
    Option RateLimitResponse :=
  if maxRequests < (prevHits : Int) + 1 then
    some ⟨429, (windowMs + 999).fdiv 1000⟩
  else none

/-- The Joi `eventSchema` constraints on a single ingest payload that the
model carries (`userId`/`eventName` required, length 1–255). -/
def joiValidEvent (r : RawEvent) : Bool :=
  r.userId ≠ "" ∧ r.userId.length ≤ 255 ∧
    r.eventName ≠ "" ∧ r.eventName.length ≤ 255

/-- The Joi `batchSchema` constraint: an array of 1 to 1000 valid events. -/
def joiValidBatch (body : List RawEvent) : Bool :=
  1 ≤ body.length ∧ body.length ≤ 1000 ∧ body.all joiValidEvent

/-- The `data` object of the `POST /events` success envelope. -/
structure IngestResponse where
  processed : Nat
  duplicates : Nat
deriving DecidableEq, Repr

/-- The array-body branch of the `POST /events` handler
(`routes/events.ts`): validate the batch, stamp every event with the
authenticated tenant (overwriting client-supplied `orgId`/`projectId`),
run `processEventBatch`, and answer with `processed = events.length` and
the handler's `duplicates` local, which is initialised to 0 and never
updated (`processEventBatch` returns no counts). -/
def postEventsArray (h : String → String) (now : Int) (body : List RawEvent)
    (orgId projectId : String) (st : BatchState) :
    Option (IngestResponse × BatchState) :=
  if joiValidBatch body then
    let events := body.map fun r => { r with orgId := orgId, projectId := projectId }
    let st' := processEventBatch h now events orgId projectId st
    some (⟨events.length, 0⟩, st')
  else none

/-- The single-object branch of the `POST /events` handler: validate the
event, stamp the authenticated tenant, run `processEvent`, and answer
`processed = 1, duplicates = 0` whether or not the event was fresh. -/
def postEventsSingle (h : String → String) (now : Int) (body : RawEvent)
    (orgId projectId : String) (st : PipelineState) :
    Option (IngestResponse × PipelineState) :=
  if joiValidEvent body then
    let event := { body with orgId := orgId, projectId := projectId }
    match processEvent h now event orgId projectId st with
    | .ok st' => some (⟨1, 0⟩, st')
    | .error _ => none
  else none

section Helpers

variable {α : Type} [DecidableEq α]

theorem mem_uniqAux {a : α} :
    ∀ {l seen : List α}, a ∈ uniqAux l seen ↔ a ∈ l ∧ a ∉ seen := by
  intro l
  induction l with
  | nil => intro seen; simp [uniqAux]
  | cons x xs ih =>
    intro seen
    by_cases hx : x ∈ seen
    · rw [uniqAux, if_pos hx, ih]
      constructor
      · rintro ⟨h1, h2⟩
        exact ⟨List.mem_cons_of_mem _ h1, h2⟩
      · rintro ⟨h1, h2⟩
        rcases List.mem_cons.mp h1 with rfl | h1
        · exact absurd hx h2
        · exact ⟨h1, h2⟩
    · rw [uniqAux, if_neg hx, List.mem_cons, ih]
      constructor
      · rintro (rfl | ⟨h1, h2⟩)
        · exact ⟨List.mem_cons_self a xs, hx⟩
        · exact ⟨List.mem_cons_of_mem _ h1, fun hs => h2 (List.mem_cons_of_mem _ hs)⟩
      · rintro ⟨h1, h2⟩
        by_cases hax : a = x
        · exact Or.inl hax
        · rcases List.mem_cons.mp h1 with rfl | h1
          · exact absurd rfl hax
          · refine Or.inr ⟨h1, fun hs => ?_⟩
            rcases List.mem_cons.mp hs with h | h
            · exact hax h
            · exact h2 h

theorem mem_uniq {a : α} {l : List α} : a ∈ uniq l ↔ a ∈ l := by
  simp [uniq, mem_uniqAux]

theorem uniqAux_nodup : ∀ (l seen : List α), (uniqAux l seen).Nodup := by
  intro l
  induction l with
  | nil => intro seen; simp [uniqAux]
  | cons x xs ih =>
    intro seen
    by_cases hx : x ∈ seen
    · rw [uniqAux, if_pos hx]
      exact ih seen
    · rw [uniqAux, if_neg hx]
      refine List.nodup_cons.mpr ⟨fun hmem => ?_, ih (x :: seen)⟩
      exact (mem_uniqAux.mp hmem).2 (List.mem_cons_self x seen)

theorem uniq_nodup (l : List α) : (uniq l).Nodup := uniqAux_nodup l []

theorem uniq_length_le_of_subset {l m : List α}
    (hsub : ∀ a ∈ l, a ∈ m) : (uniq l).length ≤ m.length :=
  ((uniq_nodup l).subperm fun _ ha => hsub _ (mem_uniq.mp ha)).length_le

theorem uniq_length_eq_toFinset_card (l : List α) :
    (uniq l).length = l.toFinset.card := by
  have h : (uniq l).toFinset = l.toFinset := by
    ext a; simp [mem_uniq]
  rw [← List.toFinset_card_of_nodup (uniq_nodup l), h]

end Helpers

theorem length_filter_mono {α : Type} {l : List α} {p q : α → Bool}
    (h : ∀ a ∈ l, p a = true → q a = true) :
    (l.filter p).length ≤ (l.filter q).length := by
  induction l with
  | nil => simp
  | cons x xs ih =>
    have ih2 := ih fun a ha => h a (List.mem_cons_of_mem _ ha)
    by_cases hp : p x = true
    · rw [List.filter_cons_of_pos hp,
        List.filter_cons_of_pos (h x (List.mem_cons_self x xs) hp)]
      simpa using ih2
    · rw [List.filter_cons_of_neg (by simpa using hp)]
      by_cases hq : q x = true
      · rw [List.filter_cons_of_pos hq]
        exact ih2.trans (Nat.le_succ _)
      · rw [List.filter_cons_of_neg (by simpa using hq)]
        exact ih2

theorem jsRound2_nonneg {x : ℚ} (hx : 0 ≤ x) : 0 ≤ jsRound2 x := by
  unfold jsRound2 jsRound
  have h1 : (0 : ℚ) ≤ x * 100 + 1 / 2 := by positivity
  have h2 : (0 : ℤ) ≤ ⌊x * 100 + 1 / 2⌋ := Int.le_floor.mpr (by exact_mod_cast h1)
  positivity

theorem jsRound2_le_hundred {x : ℚ} (hx : x ≤ 100) : jsRound2 x ≤ 100 := by
  unfold jsRound2 jsRound
  have h1 : x * 100 + 1 / 2 ≤ 10000 + 1 / 2 := by linarith
  have h2 : ⌊x * 100 + 1 / 2⌋ ≤ ⌊(10000 : ℚ) + 1 / 2⌋ := Int.floor_le_floor h1
  have h3 : ⌊(10000 : ℚ) + 1 / 2⌋ = 10000 := by norm_num [Int.floor_eq_iff]
  rw [h3] at h2
  have h4 : ((⌊x * 100 + 1 / 2⌋ : ℤ) : ℚ) ≤ 10000 := by exact_mod_cast h2
  linarith


instance : IsTotal MetricBucket (fun a b => a.timestampMs ≤ b.timestampMs) :=
  ⟨fun a b => le_total a.timestampMs b.timestampMs⟩

instance : IsTrans MetricBucket (fun a b => a.timestampMs ≤ b.timestampMs) :=
  ⟨fun _ _ _ hab hbc => le_trans hab hbc⟩

instance : IsTotal Event (fun a b => a.timestampMs ≤ b.timestampMs) :=
  ⟨fun a b => le_total a.timestampMs b.timestampMs⟩

instance : IsTrans Event (fun a b => a.timestampMs ≤ b.timestampMs) :=
  ⟨fun _ _ _ hab hbc => le_trans hab hbc⟩

theorem isDuplicate_of_mem {markers : List String} {eventId orgId projectId : String}
    (hm : dedupKey orgId projectId eventId ∈ markers) :
    isDuplicate markers eventId orgId projectId = (true, markers) := by
  simp [isDuplicate, hm]

theorem isDuplicate_of_not_mem {markers : List String} {eventId orgId projectId : String}
    (hm : dedupKey orgId projectId eventId ∉ markers) :
    isDuplicate markers eventId orgId projectId =
      (false, dedupKey orgId projectId eventId :: markers) := by
  simp [isDuplicate, hm]

theorem processEvent_duplicate {h : String → String} {now : Int} {raw : RawEvent}
    {orgId projectId : String} {st : PipelineState} {ve : Event}
    (hv : validateEvent now raw = some ve)
    (hm : dedupKey orgId projectId (generateEventId h ve) ∈ st.markers) :
    processEvent h now raw orgId projectId st = .ok st := by
  rw [processEvent, hv]
  simp only [isDuplicate_of_mem hm]
  rfl

theorem processEvent_fresh {h : String → String} {now : Int} {raw : RawEvent}
    {orgId projectId : String} {st : PipelineState} {ve : Event}
    (hv : validateEvent now raw = some ve)
    (hm : dedupKey orgId projectId (generateEventId h ve) ∉ st.markers)
    (hlen : (bufferGet st.buffers (orgId, projectId)).length + 1 < maxBatchSize) :
    processEvent h now raw orgId projectId st =
      .ok { st with
        markers := dedupKey orgId projectId (generateEventId h ve) :: st.markers
        buffers := bufferSet st.buffers (orgId, projectId)
          (bufferGet st.buffers (orgId, projectId) ++ [ve]) } := by
  rw [processEvent, hv]
  simp only [isDuplicate_of_not_mem hm]
  have hno : ¬ maxBatchSize ≤ (bufferGet st.buffers (orgId, projectId)).length + 1 := by
    omega
  simp [hno]

theorem batchPartition_nil (h : String → String) (now : Int) (orgId projectId : String)
    (markers : List String) :
    batchPartition h now orgId projectId [] markers = ([], [], markers) := rfl

theorem batchPartition_cons_dup {h : String → String} {now : Int} {r : RawEvent}
    {rest : List RawEvent} {orgId projectId : String} {markers : List String} {ve : Event}
    (hv : validateEvent now r = some ve)
    (hm : dedupKey orgId projectId (generateEventId h ve) ∈ markers) :
    batchPartition h now orgId projectId (r :: rest) markers =
      ((batchPartition h now orgId projectId rest markers).1,
        generateEventId h ve :: (batchPartition h now orgId projectId rest markers).2.1,
        (batchPartition h now orgId projectId rest markers).2.2) := by
  rw [batchPartition, hv]
  simp [isDuplicate_of_mem hm]

theorem batchPartition_cons_fresh {h : String → String} {now : Int} {r : RawEvent}
    {rest : List RawEvent} {orgId projectId : String} {markers : List String} {ve : Event}
    (hv : validateEvent now r = some ve)
    (hm : dedupKey orgId projectId (generateEventId h ve) ∉ markers) :
    batchPartition h now orgId projectId (r :: rest) markers =
      (ve :: (batchPartition h now orgId projectId rest
          (dedupKey orgId projectId (generateEventId h ve) :: markers)).1,
        (batchPartition h now orgId projectId rest
          (dedupKey orgId projectId (generateEventId h ve) :: markers)).2.1,
        (batchPartition h now orgId projectId rest
          (dedupKey orgId projectId (generateEventId h ve) :: markers)).2.2) := by
  rw [batchPartition, hv]
  simp [isDuplicate_of_not_mem hm]

/-- The event used to exercise the deduplication pipeline. -/
def c1Raw : RawEvent := ⟨"u1", "click", some 0, "o", "p"⟩

/-- The validated form of `c1Raw`. -/
def c1Event : Event := ⟨"u1", "click", 0, "o", "p"⟩

theorem c1_valid : validateEvent 0 c1Raw = some c1Event := rfl

/-- The single-event submission path run end to end, exactly as the claim
describes: `processEvent` twice (both submissions within the dedup TTL),
then the sweeper flushes the buffer, then the queue worker processes the
enqueued batch. -/
def runSingleTwice (h : String → String) : Except String PipelineState :=
  match processEvent h 0 c1Raw "o" "p" PipelineState.init with
  | .error e => .error e
  | .ok s1 =>
    match processEvent h 0 c1Raw "o" "p" s1 with
    | .error e => .error e
    | .ok s2 => .ok (runQueueWorker h 0 (flushBuffers s2))

theorem c1_step1 (h : String → String) :
    processEvent h 0 c1Raw "o" "p" PipelineState.init =
      .ok ⟨[dedupKey "o" "p" (generateEventId h c1Event)],
        [(("o", "p"), [c1Event])], [], []⟩ := by
  rw [processEvent_fresh c1_valid (by simp [PipelineState.init])
    (by simp [PipelineState.init, bufferGet, maxBatchSize])]
  simp [PipelineState.init, bufferGet, bufferSet]

theorem c1_step2 (h : String → String) :
    processEvent h 0 c1Raw "o" "p"
      ⟨[dedupKey "o" "p" (generateEventId h c1Event)], [(("o", "p"), [c1Event])], [], []⟩ =
    .ok ⟨[dedupKey "o" "p" (generateEventId h c1Event)], [(("o", "p"), [c1Event])], [], []⟩ :=
  processEvent_duplicate c1_valid (List.mem_singleton.mpr rfl)

theorem c1_flush (h : String → String) :
    flushBuffers ⟨[dedupKey "o" "p" (generateEventId h c1Event)],
        [(("o", "p"), [c1Event])], [], []⟩ =
      ⟨[dedupKey "o" "p" (generateEventId h c1Event)], [(("o", "p"), [])],
        [([c1Event], "o", "p")], []⟩ := by
  simp [flushBuffers, processBuffer, bufferGet, bufferSet, c1Event]

theorem c1_worker (h : String → String) :
    runQueueWorker h 0
      ⟨[dedupKey "o" "p" (generateEventId h c1Event)], [(("o", "p"), [])],
        [([c1Event], "o", "p")], []⟩ =
      ⟨[dedupKey "o" "p" (generateEventId h c1Event)], [(("o", "p"), [])], [], []⟩ := by
  rw [runQueueWorker]
  simp only [List.foldl_cons, List.foldl_nil, List.map_cons, List.map_nil]
  rw [processEventBatch]
  rw [show Event.toRaw c1Event = c1Raw from rfl]
  rw [batchPartition_cons_dup c1_valid (List.mem_singleton.mpr rfl)]
  simp [batchPartition_nil]

theorem c1_run (h : String → String) :
    runSingleTwice h =
      .ok ⟨[dedupKey "o" "p" (generateEventId h c1Event)], [(("o", "p"), [])], [], []⟩ := by
  unfold runSingleTwice
  rw [c1_step1 h]
  simp only [c1_step2 h, c1_flush h, c1_worker h]

/-- C1: dedup idempotence fails on the single-event path.  For every hash
function, submitting `c1Raw` twice through `processEvent`, flushing the
buffer and letting the queue worker run leaves the Event Store with ZERO
records carrying fingerprint(e) — `isDuplicate` writes the marker during
`processEvent`, and the queue worker's `processEventBatch` re-checks the
same marker and discards the buffered event as a duplicate of itself.  On
the array path (`processEventBatch` called directly by the route) the same
double submission leaves exactly one record, as the claim demands. -/
theorem C1_single_path_persists_nothing (h : String → String) :
    (runSingleTwice h).map (fun st => fingerprintCount h st.store c1Event) = .ok 0 ∧
    fingerprintCount h
      (processEventBatch h 0 [c1Raw] "o" "p"
        (processEventBatch h 0 [c1Raw] "o" "p" ⟨[], []⟩)).store c1Event = 1 := by
  have hbatch1 : processEventBatch h 0 [c1Raw] "o" "p" ⟨[], []⟩ =
      ⟨[dedupKey "o" "p" (generateEventId h c1Event)], [c1Event]⟩ := by
    rw [processEventBatch]
    rw [batchPartition_cons_fresh c1_valid (List.not_mem_nil _)]
    simp [batchPartition_nil]
  constructor
  · rw [c1_run h]
    simp [fingerprintCount, Except.map]
  · rw [hbatch1, processEventBatch]
    rw [batchPartition_cons_dup c1_valid (List.mem_singleton.mpr rfl)]
    simp [batchPartition_nil, fingerprintCount, generateEventId]

/-- Two events that differ in both `userId` and `eventName` but share one
fingerprint pre-image: `"a-b" + "-" + "c" = "a" + "-" + "b-c"`. -/
def c9e1 : Event := ⟨"a-b", "c", 0, "o", "p"⟩

/-- The colliding partner of `c9e1`. -/
def c9e2 : Event := ⟨"a", "b-c", 0, "o", "p"⟩

theorem c9_same_preimage : eventIdString c9e1 = eventIdString c9e2 := rfl

theorem c9_valid1 : validateEvent 0 c9e1.toRaw = some c9e1 := rfl

theorem c9_valid2 : validateEvent 0 c9e2.toRaw = some c9e2 := rfl

/-- C9: the fingerprint encoding joins the tuple fields with an unescaped
`-`, so it is not injective on the tuple.  `c9e1` and `c9e2` differ in
`userId` and `eventName`, yet for every hash function their fingerprints
coincide (the pre-image strings are equal, so SHA-256 maps them to the
same digest), and a batch carrying both persists only the first: the
second is counted as a duplicate. -/
theorem C9_fingerprint_collision (h : String → String) :
    c9e1.userId ≠ c9e2.userId ∧ c9e1.eventName ≠ c9e2.eventName ∧
    generateEventId h c9e1 = generateEventId h c9e2 ∧
    (processEventBatch h 0 [c9e1.toRaw, c9e2.toRaw] "o" "p" ⟨[], []⟩).store = [c9e1] ∧
    batchDupCount h 0 [c9e1.toRaw, c9e2.toRaw] "o" "p" [] = 1 := by
  have hid : generateEventId h c9e1 = generateEventId h c9e2 :=
    congrArg h c9_same_preimage
  have hmem : dedupKey "o" "p" (generateEventId h c9e2) ∈
      [dedupKey "o" "p" (generateEventId h c9e1)] :=
    List.mem_singleton.mpr (congrArg (dedupKey "o" "p") hid.symm)
  have hpart := @batchPartition_cons_fresh h 0 c9e1.toRaw [c9e2.toRaw] "o" "p" [] c9e1
    c9_valid1 (List.not_mem_nil _)
  refine ⟨by decide, by decide, hid, ?_, ?_⟩
  · rw [processEventBatch, hpart, batchPartition_cons_dup c9_valid2 hmem]
    simp [batchPartition_nil]
  · rw [batchDupCount, hpart, batchPartition_cons_dup c9_valid2 hmem]
    simp [batchPartition_nil]

/-- The batch payload used to exercise the ingest response accounting. -/
def c4Raw : RawEvent := ⟨"u1", "click", some 0, "o", "p"⟩

/-- The state after the batch `[c4Raw]` has been ingested once: its dedup
marker is present, so a re-submission makes every event a duplicate. -/
def c4St1 : BatchState := processEventBatch hashId 0 [c4Raw] "o" "p" ⟨[], []⟩

/-- C4 counterexample: re-submitting the already-seen batch `[c4Raw]`
(`n = 0` fresh events, `m = 1` duplicate, as `batchNewCount`/`batchDupCount`
record) makes the `POST /events` handler answer `processed = 1,
duplicates = 0` — not the `processed = 0, duplicates = 1` the claim
requires. -/
theorem C4_counterexample_resubmitted_batch :
    batchNewCount hashId 0 [c4Raw] "o" "p" c4St1.markers = 0 ∧
    batchDupCount hashId 0 [c4Raw] "o" "p" c4St1.markers = 1 ∧
    (postEventsArray hashId 0 [c4Raw] "o" "p" c4St1).map
      (fun x => (x.1.processed, x.1.duplicates)) = some (1, 0) ∧
    ¬ ((1 : Nat) = 0 ∧ (0 : Nat) = 1) := by decide

/-- C4 amended: for every `POST /events` array request that passes
validation, the response reports `processed` equal to the TOTAL number of
submitted events (fresh and duplicate alike) and `duplicates = 0`: the
handler's `duplicates` local is initialised to 0 and never updated, since
`processEventBatch` returns no counts. -/
theorem C4_batch_response_accounting (h : String → String) (now : Int)
    (body : List RawEvent) (orgId projectId : String) (st : BatchState)
    (resp : IngestResponse) (st2 : BatchState)
    (hpost : postEventsArray h now body orgId projectId st = some (resp, st2)) :
    resp.processed = body.length ∧ resp.duplicates = 0 := by
  unfold postEventsArray at hpost
  by_cases hv : joiValidBatch body = true
  · rw [if_pos hv] at hpost
    injection hpost with hpair
    have h1 : resp = ⟨(body.map fun r =>
        { r with orgId := orgId, projectId := projectId }).length, 0⟩ :=
      congrArg Prod.fst hpair.symm
    rw [h1]
    simp
  · rw [if_neg hv] at hpost
    exact absurd hpost (by simp)

/-- Witness for C4's amended theorem at a concrete request. -/
theorem C4_batch_response_accounting_witness :
    (⟨1, 0⟩ : IngestResponse).processed = [c4Raw].length ∧
    (⟨1, 0⟩ : IngestResponse).duplicates = 0 :=
  C4_batch_response_accounting hashId 0 [c4Raw] "o" "p" ⟨[], []⟩ ⟨1, 0⟩
    ⟨["event:o:p:u1-click-0-o-p"], [⟨"u1", "click", 0, "o", "p"⟩]⟩ (by decide)

/-- An event belonging to tenant `(orgB, projB)` — not the caller's. -/
def c2Victim : Event := ⟨"v1", "click", 50, "orgB", "projB"⟩

/-- The `GET /metrics` request of a caller authenticated as
`(orgA, projA)` whose query-string `filters` JSON carries
`{"orgId": "orgB", "projectId": "projB"}`. -/
def c2Query : MetricsQuery :=
  ⟨"click", .daily, "orgA", "projA", 0, 100,
    ⟨some "orgB", some "projB", none, none⟩⟩

/-- The same request without the filters override. -/
def c2QueryNoFilters : MetricsQuery :=
  ⟨"click", .daily, "orgA", "projA", 0, 100, ⟨none, none, none, none⟩⟩

/-- C2: tenant isolation is violated by `calculateMetrics`.
`Object.assign(matchStage, filters)` merges the client-supplied filters
AFTER the authenticated `orgId`/`projectId` are set, so filter keys of the
same name override them: a caller authenticated as `(orgA, projA)` who
sends `filters={"orgId":"orgB","projectId":"projB"}` gets a result counting
`(orgB, projB)`'s event (`totalCount = 1`), the result changes when that
foreign event is removed (`totalCount = 0` on the empty store), and
without the override the same caller sees nothing. -/
theorem C2_metrics_filters_override_tenant :
    (calculateMetrics [c2Victim] c2Query).map (·.totalCount) = some 1 ∧
    (calculateMetrics [] c2Query).map (·.totalCount) = some 0 ∧
    (calculateMetrics [c2Victim] c2QueryNoFilters).map (·.totalCount) = some 0 ∧
    c2Victim.orgId ≠ c2Query.orgId ∧ c2Victim.projectId ≠ c2Query.projectId := by
  decide

/-- C8 counterexample: with `RATE_LIMIT_MAX_REQUESTS` unset the general
limiter's maximum is `parseInt('10000') = 10000`, not the 100 the claim
states. -/
theorem C8_counterexample_default_max :
    ¬ (rateLimitMaxRequests none = some 100) := by decide

/-- C8 amended: the general rate limiter uses a 15-minute window
(`windowMs = 900000` when `RATE_LIMIT_WINDOW_MS` is unset) and a default
maximum of 10000 requests per window (the source raised it "for
development"), keyed by API key — falling back to the IP for anonymous
callers; once the window's hits exceed the maximum the response is 429
with `retryAfter = ceil(windowMs / 1000) = 900` seconds, and below the
maximum requests pass. -/
theorem C8_rate_limiter_defaults :
    rateLimitWindowMs none = some 900000 ∧
    rateLimitMaxRequests none = some 10000 ∧
    (∀ k : String, k ≠ "" → ∀ ip : Option String, rateLimitKey (some k) ip = k) ∧
    (∀ i : String, i ≠ "" → rateLimitKey none (some i) = i) ∧
    (∀ n : Nat, 10000 ≤ n → rateLimiterHit 900000 10000 n = some ⟨429, 900⟩) ∧
    (∀ n : Nat, n < 10000 → rateLimiterHit 900000 10000 n = none) := by
  refine ⟨by decide, by decide, ?_, ?_, ?_, ?_⟩
  · intro k hk ip
    cases ip <;> simp [rateLimitKey, hk]
  · intro i hi
    simp [rateLimitKey, hi]
  · intro n hn
    have hlt : (10000 : Int) < (n : Int) + 1 := by exact_mod_cast Nat.lt_succ_of_le hn
    rw [rateLimiterHit, if_pos hlt]
    norm_num [Int.fdiv]
  · intro n hn
    have hlt : ¬ (10000 : Int) < (n : Int) + 1 := by omega
    rw [rateLimiterHit, if_neg hlt]

/-- Witness for C8's amended theorem at concrete inputs. -/
theorem C8_rate_limiter_defaults_witness :
    rateLimitKey (some "key-1") (some "10.0.0.1") = "key-1" ∧
    rateLimitKey none (some "10.0.0.1") = "10.0.0.1" ∧
    rateLimiterHit 900000 10000 10000 = some ⟨429, 900⟩ ∧
    rateLimiterHit 900000 10000 9999 = none :=
  ⟨C8_rate_limiter_defaults.2.2.1 "key-1" (by decide) (some "10.0.0.1"),
    C8_rate_limiter_defaults.2.2.2.1 "10.0.0.1" (by decide),
    C8_rate_limiter_defaults.2.2.2.2.1 10000 (by decide),
    C8_rate_limiter_defaults.2.2.2.2.2 9999 (by decide)⟩

/-- C10: `Event.getUserJourney` applies the `[startDate, endDate]` filter
only when BOTH bounds are supplied.  With exactly one bound given, the
query is identical to the unbounded one: every event of the user in the
tenant is returned, sorted chronologically ascending, with the supplied
bound ignored entirely. -/
theorem C10_journey_one_sided_range_ignored (store : List Event)
    (u o p : String) (a b : Int) :
    getUserJourneyQuery store u o p (some a) none =
      getUserJourneyQuery store u o p none none ∧
    getUserJourneyQuery store u o p none (some b) =
      getUserJourneyQuery store u o p none none ∧
    getUserJourneyQuery store u o p none none =
      (store.filter fun e =>
        e.userId = u ∧ e.orgId = o ∧ e.projectId = p).insertionSort
        (fun x y => x.timestampMs ≤ y.timestampMs) ∧
    List.Sorted (fun x y : Event => x.timestampMs ≤ y.timestampMs)
      (getUserJourneyQuery store u o p (some a) none) := by
  refine ⟨rfl, rfl, ?_, ?_⟩
  · unfold getUserJourneyQuery
    congr 1
    apply List.filter_congr
    intro e _
    simp [journeyMatch]
  · unfold getUserJourneyQuery
    exact List.sorted_insertionSort _ _

theorem jsRound2_zero : jsRound2 0 = 0 := by
  norm_num [jsRound2, jsRound]

theorem retainedOnDay_le_cohort (store : List Event) (q : RetentionQuery)
    (cohort : List String) (day : Nat) :
    retainedOnDay store q cohort day ≤ cohort.length := by
  unfold retainedOnDay
  apply uniq_length_le_of_subset
  intro a ha
  rcases List.mem_map.mp ha with ⟨e, he, rfl⟩
  have hmem := List.mem_filter.mp he
  simp only [decide_eq_true_eq] at hmem
  exact hmem.2.2.2.1

/-- C7: retention bounds.  Every per-day entry of a `calculateRetention`
result has a retention rate within `[0, 100]` and retains at most
`cohortSize` users; when the cohort is empty the rate is 0 for every
day. -/
theorem C7_retention_bounds (store : List Event) (q : RetentionQuery)
    (d : RetentionDay) (hd : d ∈ (calculateRetention store q).retentionData) :
    0 ≤ d.retentionRate ∧ d.retentionRate ≤ 100 ∧
    d.retainedUsers ≤ (calculateRetention store q).cohortSize ∧
    ((calculateRetention store q).cohortSize = 0 → d.retentionRate = 0) := by
  unfold calculateRetention at hd ⊢
  simp only [List.mem_map, List.mem_range] at hd
  rcases hd with ⟨i, _hi, rfl⟩
  simp only
  set cohort := cohortUsers store q with hcoh
  have hle := retainedOnDay_le_cohort store q cohort (i + 1)
  by_cases hpos : 0 < cohort.length
  · rw [if_pos hpos]
    set x : ℚ := ((retainedOnDay store q cohort (i + 1) : ℚ) / cohort.length) * 100 with hx
    have hx0 : 0 ≤ x := by positivity
    have hx100 : x ≤ 100 := by
      rw [hx]
      have hq : ((retainedOnDay store q cohort (i + 1) : ℚ) / cohort.length) ≤ 1 := by
        rw [div_le_one (by exact_mod_cast hpos)]
        exact_mod_cast hle
      nlinarith
    exact ⟨jsRound2_nonneg hx0, jsRound2_le_hundred hx100, hle,
      fun h0 => absurd h0 (by omega)⟩
  · rw [if_neg hpos]
    exact ⟨le_of_eq jsRound2_zero.symm, by rw [jsRound2_zero]; norm_num, hle,
      fun _ => jsRound2_zero⟩

/-- A store with one `signup` cohort user who is active on day 1. -/
def c7Store : List Event :=
  [⟨"u1", "signup", 0, "o", "p"⟩, ⟨"u1", "open", 90000000, "o", "p"⟩]

/-- A concrete two-day retention query over `c7Store`. -/
def c7Query : RetentionQuery := ⟨"signup", 2, "o", "p", 0, 200000000⟩

theorem c7_cohort_eval : cohortUsers c7Store c7Query = ["u1"] := by decide

theorem c7_day2_retained : retainedOnDay c7Store c7Query ["u1"] 2 = 0 := by decide

theorem c7_day2_mem :
    (⟨2, 0, 0⟩ : RetentionDay) ∈ (calculateRetention c7Store c7Query).retentionData := by
  unfold calculateRetention
  rw [c7_cohort_eval]
  simp only [show c7Query.days = 2 from rfl, show List.range 2 = [0, 1] from rfl,
    List.map_cons, List.map_nil]
  refine List.mem_cons.mpr (Or.inr (List.mem_singleton.mpr ?_))
  norm_num [c7_day2_retained, jsRound2_zero]

/-- Witness for C7 at a concrete store, query and result entry. -/
theorem C7_retention_bounds_witness :
    0 ≤ (⟨2, 0, 0⟩ : RetentionDay).retentionRate ∧
    (⟨2, 0, 0⟩ : RetentionDay).retentionRate ≤ 100 ∧
    (⟨2, 0, 0⟩ : RetentionDay).retainedUsers ≤
      (calculateRetention c7Store c7Query).cohortSize ∧
    ((calculateRetention c7Store c7Query).cohortSize = 0 →
      (⟨2, 0, 0⟩ : RetentionDay).retentionRate = 0) :=
  C7_retention_bounds c7Store c7Query ⟨2, 0, 0⟩ c7_day2_mem

/-- C6: metrics totals.  Every successful `calculateMetrics` result has
its bucket series sorted ascending by bucket timestamp, `totalCount` equal
to the sum of the per-bucket counts, and `totalUniqueUsers` equal to the
number of distinct `userId`s across the whole matched range (not a sum of
per-bucket unique counts). -/
theorem C6_metrics_totals (store : List Event) (q : MetricsQuery)
    (r : MetricsResult) (hr : calculateMetrics store q = some r) :
    List.Sorted (fun a b : MetricBucket => a.timestampMs ≤ b.timestampMs) r.data ∧
    r.totalCount = (r.data.map (·.count)).sum ∧
    r.totalUniqueUsers =
      ((store.filter (metricsMatch q)).map (·.userId)).toFinset.card := by
  unfold calculateMetrics at hr
  cases hmap : metricsBuckets store q with
  | none => rw [hmap] at hr; simp at hr
  | some buckets =>
    rw [hmap] at hr
    simp only [Option.map_some] at hr
    cases hr
    refine ⟨List.sorted_insertionSort _ _, rfl, ?_⟩
    simp [distinctUserCount, uniq_length_eq_toFinset_card]

/-- Three `page_view`s by distinct users on 2024-01-01 and one on
2024-01-02 (UTC), the spec's scenario S5. -/
def c6Store : List Event :=
  [⟨"u1", "page_view", 1704103200000, "o", "p"⟩,
   ⟨"u2", "page_view", 1704106800000, "o", "p"⟩,
   ⟨"u3", "page_view", 1704110400000, "o", "p"⟩,
   ⟨"u4", "page_view", 1704189600000, "o", "p"⟩]

/-- Daily metrics over the first two days of 2024. -/
def c6Query : MetricsQuery :=
  ⟨"page_view", .daily, "o", "p", 1704067200000, 1704240000000,
    ⟨none, none, none, none⟩⟩

/-- Witness for C6 at the concrete S5-style store and query. -/
theorem C6_metrics_totals_witness :
    List.Sorted (fun a b : MetricBucket => a.timestampMs ≤ b.timestampMs)
      (MetricsResult.mk 4 4
        [⟨1704067200000, 3, 3⟩, ⟨1704153600000, 1, 1⟩]).data ∧
    (MetricsResult.mk 4 4
        [⟨1704067200000, 3, 3⟩, ⟨1704153600000, 1, 1⟩]).totalCount =
      (((MetricsResult.mk 4 4
        [⟨1704067200000, 3, 3⟩, ⟨1704153600000, 1, 1⟩]).data).map (·.count)).sum ∧
    (MetricsResult.mk 4 4
        [⟨1704067200000, 3, 3⟩, ⟨1704153600000, 1, 1⟩]).totalUniqueUsers =
      ((c6Store.filter (metricsMatch c6Query)).map (·.userId)).toFinset.card :=
  C6_metrics_totals c6Store c6Query
    (MetricsResult.mk 4 4 [⟨1704067200000, 3, 3⟩, ⟨1704153600000, 1, 1⟩])
    (by decide)

theorem stepCount_le (data : List FunnelUser) (s t : String)
    (h : ∀ u ∈ data, t ∈ u.eventNames → s ∈ u.eventNames) :
    stepCount data t ≤ stepCount data s := by
  unfold stepCount
  apply length_filter_mono
  intro u hu hmem
  simp only [decide_eq_true_eq] at hmem ⊢
  exact h u hu hmem

theorem countsMonotone_cons {a b : StepResult} {rest : List StepResult}
    (hab : b.count ≤ a.count) (hrest : countsMonotone (b :: rest) = true) :
    countsMonotone (a :: b :: rest) = true := by
  rw [countsMonotone]
  simp [hab, hrest]

theorem funnelLoop_monotone (data : List FunnelUser) (steps : List String)
    (hdc : downwardClosed data steps = true) :
    ∀ prev, countsMonotone (funnelLoop data prev steps) = true := by
  induction steps with
  | nil => intro prev; rfl
  | cons s rest ih =>
    intro prev
    rcases rest with _ | ⟨t, rest'⟩
    · rfl
    · rw [downwardClosed, Bool.and_eq_true] at hdc
      have hall : ∀ u ∈ data, t ∈ u.eventNames → s ∈ u.eventNames := by
        intro u hu
        have hx := List.all_eq_true.mp hdc.1 u hu
        intro ht
        rcases (by simpa using hx : t ∉ u.eventNames ∨ s ∈ u.eventNames) with hc | hc
        · exact absurd ht hc
        · exact hc
      have hchain := ih hdc.2 (stepCount data s)
      rw [funnelLoop] at hchain ⊢
      rw [funnelLoop]
      exact countsMonotone_cons (stepCount_le data s t hall) hchain

/-- C3 amended: the per-step counts of a `calculateFunnel` result are
non-increasing whenever the retrieved funnel data is downward closed
(every user who reached a step also reached the preceding one); without
that hypothesis the counts need not be monotone, since each step counts
users independently of earlier steps. -/
theorem C3_funnel_monotone_of_downwardClosed (store : List Event) (funnel : Funnel)
    (orgId projectId : String) (startMs endMs : Int)
    (hdc : downwardClosed
      (getFunnelData store orgId projectId (funnel.steps.map (·.eventName)) startMs endMs)
      (funnel.steps.map (·.eventName)) = true) :
    countsMonotone (funnelResultSteps store funnel orgId projectId startMs endMs) = true := by
  unfold funnelResultSteps calculateFunnel
  by_cases hten : funnel.orgId = orgId ∧ funnel.projectId = projectId
  · rw [if_pos hten]
    exact funnelLoop_monotone _ _ hdc 0
  · rw [if_neg hten]
    rfl

/-- A store where one user produced only the SECOND step's event. -/
def c3Store : List Event := [⟨"u1", "B", 0, "o", "p"⟩]

/-- A two-step funnel `A → B` owned by the calling tenant. -/
def c3Funnel : Funnel := ⟨"f", [⟨"A"⟩, ⟨"B"⟩], "o", "p"⟩

/-- C3 counterexample: `calculateFunnel` counts each step independently
(membership in the step's event name), so over `c3Store` the funnel `A → B`
produces step counts `[0, 1]`, which are NOT non-increasing. -/
theorem C3_counterexample_nonmonotone_funnel :
    ¬ (countsMonotone (funnelResultSteps c3Store c3Funnel "o" "p" 0 100) = true) ∧
    (funnelResultSteps c3Store c3Funnel "o" "p" 0 100).map (·.count) = [0, 1] := by
  decide

/-- Downward-closed funnel data: `u1` did `A` then `B`, `u2` only `A`. -/
def c3wStore : List Event :=
  [⟨"u1", "A", 0, "o", "p"⟩, ⟨"u1", "B", 10, "o", "p"⟩, ⟨"u2", "A", 0, "o", "p"⟩]

/-- Witness for C3's amended theorem at the concrete S3-style store. -/
theorem C3_funnel_monotone_of_downwardClosed_witness :
    countsMonotone (funnelResultSteps c3wStore c3Funnel "o" "p" 0 100) = true :=
  C3_funnel_monotone_of_downwardClosed c3wStore c3Funnel "o" "p" 0 100 (by decide)

theorem jsRound2_hundred : jsRound2 100 = 100 := by
  norm_num [jsRound2, jsRound]

/-- The first step's rates: conversion 100 and drop-off 0
(`previousCount` starts at 0). -/
def headRatesOk : List StepResult → Prop
  | [] => True
  | a :: _ => a.conversionRate = 100 ∧ a.dropOffRate = 0

/-- The relation `calculateFunnel` maintains between consecutive steps:
each step's conversion and drop-off rates are its own ratio against the
previous step's count, rounded to two decimals INDEPENDENTLY of each
other (conversion 100 and drop-off 0 when the previous count is 0). -/
def stepRatesChain : List StepResult → Prop
  | a :: b :: rest =>
    (b.conversionRate =
        jsRound2 (if 0 < a.count then ((b.count : ℚ) / a.count) * 100 else 100) ∧
      b.dropOffRate =
        jsRound2 (if 0 < a.count then (((a.count : ℚ) - b.count) / a.count) * 100 else 0)) ∧
    stepRatesChain (b :: rest)
  | _ => True

theorem funnelLoop_rates (data : List FunnelUser) :
    ∀ (steps : List String) (prev : Nat), stepRatesChain (funnelLoop data prev steps)
  | [], _ => trivial
  | [s], _ => trivial
  | s :: t :: rest, prev => by
    rw [funnelLoop, funnelLoop]
    exact ⟨⟨rfl, rfl⟩, by
      have := funnelLoop_rates data (t :: rest) (stepCount data s)
      rwa [funnelLoop] at this⟩

theorem funnelResultSteps_of_tenant {store : List Event} {funnel : Funnel}
    {orgId projectId : String} {startMs endMs : Int}
    (hten : funnel.orgId = orgId ∧ funnel.projectId = projectId) :
    funnelResultSteps store funnel orgId projectId startMs endMs =
      funnelLoop
        (getFunnelData store orgId projectId (funnel.steps.map (·.eventName))
          startMs endMs) 0 (funnel.steps.map (·.eventName)) := by
  unfold funnelResultSteps calculateFunnel
  rw [if_pos hten]
  rfl

theorem funnelResultSteps_of_foreign {store : List Event} {funnel : Funnel}
    {orgId projectId : String} {startMs endMs : Int}
    (hten : ¬ (funnel.orgId = orgId ∧ funnel.projectId = projectId)) :
    funnelResultSteps store funnel orgId projectId startMs endMs = [] := by
  unfold funnelResultSteps calculateFunnel
  rw [if_neg hten]
  rfl

theorem headRatesOk_funnelLoop (data : List FunnelUser) (steps : List String) :
    headRatesOk (funnelLoop data 0 steps) := by
  rcases steps with _ | ⟨s, rest⟩
  · exact trivial
  · rw [funnelLoop]
    exact ⟨by norm_num [jsRound2_hundred], by norm_num [jsRound2_zero]⟩

/-- C5 amended: in every `calculateFunnel` result the first step has
conversion rate 100 and drop-off rate 0; every later step with positive
previous count has conversion `round2(100·countᵢ/countᵢ₋₁)` and drop-off
`round2(100·(countᵢ₋₁−countᵢ)/countᵢ₋₁)` — each rounded half-up to two
decimals independently, which equals `100 − conversion` except when the
unrounded rate falls exactly on a half-hundredth. -/
theorem C5_funnel_rates (store : List Event) (funnel : Funnel)
    (orgId projectId : String) (startMs endMs : Int) :
    headRatesOk (funnelResultSteps store funnel orgId projectId startMs endMs) ∧
    stepRatesChain (funnelResultSteps store funnel orgId projectId startMs endMs) := by
  by_cases hten : funnel.orgId = orgId ∧ funnel.projectId = projectId
  · rw [funnelResultSteps_of_tenant hten]
    exact ⟨headRatesOk_funnelLoop _ _, funnelLoop_rates _ _ 0⟩
  · rw [funnelResultSteps_of_foreign hten]
    exact ⟨trivial, trivial⟩

/-- Thirty-two users did step `A`; one of them also did step `B`: the conversion
ratio 1/32 = 3.125 % hits a half-hundredth tie. -/
def c5Store : List Event :=
  (List.range 32).map (fun i => ⟨"u" ++ toString i, "A", 0, "o", "p"⟩) ++
    [⟨"u0", "B", 0, "o", "p"⟩]

/-- The two-step funnel over `c5Store`. -/
def c5Funnel : Funnel := ⟨"f", [⟨"A"⟩, ⟨"B"⟩], "o", "p"⟩

theorem c5_countA :
    stepCount (getFunnelData c5Store "o" "p" ["A", "B"] 0 100) "A" = 32 := by decide

theorem c5_countB :
    stepCount (getFunnelData c5Store "o" "p" ["A", "B"] 0 100) "B" = 1 := by decide

theorem c5_steps_eval :
    funnelResultSteps c5Store c5Funnel "o" "p" 0 100 =
      [⟨"A", 32, 100, 0⟩, ⟨"B", 1, 313/100, 9688/100⟩] := by
  rw [funnelResultSteps_of_tenant (by exact ⟨rfl, rfl⟩)]
  show funnelLoop (getFunnelData c5Store "o" "p" ["A", "B"] 0 100) 0 ["A", "B"] = _
  rw [funnelLoop, funnelLoop, funnelLoop, c5_countA, c5_countB]
  norm_num [jsRound2_hundred, jsRound2_zero, jsRound2, jsRound]

/-- C5 counterexample: with counts `[32, 1]` the second step's drop-off
rate is `round2(96.875) = 96.88`, while `100 − conversion =
100 − round2(3.125) = 100 − 3.13 = 96.87`: the claim's "drop-off equals
100 minus the conversion rate" fails at this input. -/
theorem C5_counterexample_dropoff_rounding :
    (funnelResultSteps c5Store c5Funnel "o" "p" 0 100).map (·.count) = [32, 1] ∧
    ((funnelResultSteps c5Store c5Funnel "o" "p" 0 100)[1]?).map (·.dropOffRate) =
      some (9688/100 : ℚ) ∧
    ((funnelResultSteps c5Store c5Funnel "o" "p" 0 100)[1]?).map
      (fun x => 100 - x.conversionRate) = some (9687/100 : ℚ) ∧
    (9688/100 : ℚ) ≠ 9687/100 := by
  rw [c5_steps_eval]
  refine ⟨rfl, rfl, ?_, by norm_num⟩
  simp only [List.getElem?_cons_succ, List.getElem?_cons_zero, Option.map_some]
  norm_num
